import Mathlib

/-!
Verification development for the starelements runtime
(src/unnamed/part_001): a web-component bridge that registers
`<template data-star:NAME>` elements as custom elements with per-instance
signal namespaces.  The TypeScript source is shallowly embedded below:
pure helpers become Lean functions, the mutable element state becomes an
explicit `InstanceState`, the external Datastar signal store becomes a
`Store` value threaded through the lifecycle functions, and fallible
JavaScript code (JSON.parse, codec parsing) returns `Except`.
-/

namespace StarElements

/-- JavaScript runtime values as far as the runtime manipulates them:
`null`, `undefined`, `NaN`, numbers (modelled as rationals; every number
occurring in the claims is a small integer, where doubles and rationals
agree), strings, booleans, and JSON arrays/objects. -/
inductive JSVal where
  | vnull : JSVal
  | vundef : JSVal
  | vnan : JSVal
  | vnum (q : Rat) : JSVal
  | vstr (s : String) : JSVal
  | vbool (b : Bool) : JSVal
  | varr (elems : List JSVal) : JSVal
  | vobj (fields : List (String × JSVal)) : JSVal
deriving Repr

/-- JavaScript truthiness of a possibly-absent value (`undefined`, `null`,
`NaN`, `0`, `""` and `false` are falsy; objects and arrays are truthy). -/
def truthy : Option JSVal → Bool
  | none => false
  | some .vnull => false
  | some .vundef => false
  | some .vnan => false
  | some (.vnum q) => q != 0
  | some (.vstr s) => s != ""
  | some (.vbool b) => b
  | some (.varr _) => true
  | some (.vobj _) => true

/-- Read a possibly-absent slot as a JavaScript value (absent reads as
`undefined`). -/
def optVal : Option JSVal → JSVal
  | none => .vundef
  | some v => v

/-- Whitespace characters skipped by `parseInt`/`parseFloat`/JSON. -/
def isWsChar (c : Char) : Bool :=
  c = ' ' || c = '\t' || c = '\n' || c = '\r'

def skipWs (cs : List Char) : List Char :=
  cs.dropWhile isWsChar

/-- Numeric value of a list of decimal digits. -/
def digitsToNat (ds : List Char) : Nat :=
  ds.foldl (fun acc c => 10 * acc + (c.toNat - '0'.toNat)) 0

/-- Ten to a natural power, as an exactly-computed rational scale. -/
def pow10 : Nat → Rat
  | 0 => 1
  | n + 1 => 10 * pow10 n

/-- Ten to an integer power (negative powers scale downwards). -/
def pow10Int : Int → Rat
  | .ofNat n => pow10 n
  | .negSucc n => 1 / pow10 (n + 1)

/-- Model of JavaScript `parseInt(v, 10)`: skip leading whitespace, read an
optional sign and then the longest prefix of decimal digits, ignoring any
trailing garbage; no digits gives `NaN`. -/
def jsParseInt (s : String) : JSVal :=
  let cs := skipWs s.data
  let signAndRest : Int × List Char :=
    match cs with
    | '-' :: r => (-1, r)
    | '+' :: r => (1, r)
    | _ => (1, cs)
  let digits := signAndRest.2.takeWhile Char.isDigit
  if digits.isEmpty then .vnan
  else .vnum ((signAndRest.1 * (digitsToNat digits : Int) : Int) : Rat)

/-- Model of JavaScript `parseFloat(v)`: skip leading whitespace, read an
optional sign, a decimal significand with optional fractional part and an
optional exponent, ignoring trailing garbage; no digits gives `NaN`.
IEEE-754 rounding and the `Infinity` literal are not modelled: every float
in this development is a small integer where doubles and rationals agree. -/
def jsParseFloat (s : String) : JSVal :=
  let cs := skipWs s.data
  let signAndRest : Rat × List Char :=
    match cs with
    | '-' :: r => (-1, r)
    | '+' :: r => (1, r)
    | _ => (1, cs)
  let intDigits := signAndRest.2.takeWhile Char.isDigit
  let afterInt := signAndRest.2.dropWhile Char.isDigit
  let fracDigits :=
    match afterInt with
    | '.' :: r => r.takeWhile Char.isDigit
    | _ => []
  let afterFrac :=
    match afterInt with
    | '.' :: r => r.dropWhile Char.isDigit
    | _ => afterInt
  if intDigits.isEmpty && fracDigits.isEmpty then .vnan
  else
    let mantissa : Rat :=
      signAndRest.1 *
        ((digitsToNat intDigits : Rat) +
          (digitsToNat fracDigits : Rat) / pow10 fracDigits.length)
    let expPart : Option (Int × List Char) :=
      match afterFrac with
      | 'e' :: r | 'E' :: r =>
        match r with
        | '-' :: r2 =>
          let ds := r2.takeWhile Char.isDigit
          if ds.isEmpty then none else some (-(digitsToNat ds : Int), r2)
        | '+' :: r2 =>
          let ds := r2.takeWhile Char.isDigit
          if ds.isEmpty then none else some ((digitsToNat ds : Int), r2)
        | _ =>
          let ds := afterFrac.drop 1 |>.takeWhile Char.isDigit
          if ds.isEmpty then none else some ((digitsToNat ds : Int), [])
      | _ => none
    match expPart with
    | some (e, _) => .vnum (mantissa * pow10Int e)
    | none => .vnum mantissa

/-- Decode one hexadecimal digit of a JSON `\uXXXX` escape, folding the
letter's case by setting bit 5 of its code. -/
def hexVal (c : Char) : Option Nat :=
  if c.isDigit then some (c.toNat - '0'.toNat)
  else
    let folded := c.toNat ||| 32
    if 'a'.toNat ≤ folded && folded ≤ 'f'.toNat then
      some (folded - 'a'.toNat + 10)
    else none

/-- Parse the remaining characters of a JSON string literal (after the
opening quote), handling the standard escapes.  Lone surrogate escapes map
through `Char.ofNat`'s fallback; no claim exercises them. -/
def parseJsonString : Nat → List Char → Except String (List Char × List Char)
  | 0, _ => .error "JSON: out of fuel"
  | _, [] => .error "JSON: unterminated string"
  | fuel + 1, c :: rest =>
    if c = '"' then .ok ([], rest)
    else if c = '\\' then
      match rest with
      | [] => .error "JSON: unterminated escape"
      | e :: rest2 =>
        let esc : Except String (Char × List Char) :=
          if e = '"' then .ok ('"', rest2)
          else if e = '\\' then .ok ('\\', rest2)
          else if e = '/' then .ok ('/', rest2)
          else if e = 'b' then .ok ('\x08', rest2)
          else if e = 'f' then .ok ('\x0c', rest2)
          else if e = 'n' then .ok ('\n', rest2)
          else if e = 'r' then .ok ('\r', rest2)
          else if e = 't' then .ok ('\t', rest2)
          else if e = 'u' then
            match rest2 with
            | h1 :: h2 :: h3 :: h4 :: rest3 =>
              match hexVal h1, hexVal h2, hexVal h3, hexVal h4 with
              | some a, some b, some c', some d =>
                .ok (Char.ofNat (((a * 16 + b) * 16 + c') * 16 + d), rest3)
              | _, _, _, _ => .error "JSON: bad unicode escape"
            | _ => .error "JSON: bad unicode escape"
          else .error "JSON: bad escape"
        match esc with
        | .error m => .error m
        | .ok (ch, rest') => do
          let (tail, rem) ← parseJsonString fuel rest'
          .ok (ch :: tail, rem)
    else do
      let (tail, rem) ← parseJsonString fuel rest
      .ok (c :: tail, rem)

/-- Parse a strict JSON number: optional minus sign, an integer part with
no leading zero, an optional fraction and an optional exponent.  The value
is exact as a rational. -/
def parseJsonNumber (cs : List Char) : Except String (Rat × List Char) :=
  let signAndRest : Rat × List Char :=
    match cs with
    | '-' :: r => (-1, r)
    | _ => (1, cs)
  let intDigits := signAndRest.2.takeWhile Char.isDigit
  let afterInt := signAndRest.2.dropWhile Char.isDigit
  if intDigits.isEmpty then .error "JSON: expected number"
  else if intDigits.length > 1 && intDigits.headD '0' = '0' then
    .error "JSON: leading zero"
  else
    let fracDigits :=
      match afterInt with
      | '.' :: r => r.takeWhile Char.isDigit
      | _ => []
    let afterFrac :=
      match afterInt with
      | '.' :: r => r.dropWhile Char.isDigit
      | _ => afterInt
    if (match afterInt with | '.' :: _ => fracDigits.isEmpty | _ => false) then
      .error "JSON: expected fraction digits"
    else
      let base : Rat :=
        (digitsToNat intDigits : Rat) +
          (digitsToNat fracDigits : Rat) / pow10 fracDigits.length
      match afterFrac with
      | 'e' :: r | 'E' :: r =>
        let expSignAndRest : Int × List Char :=
          match r with
          | '-' :: r2 => (-1, r2)
          | '+' :: r2 => (1, r2)
          | _ => (1, r)
        let expDigits := expSignAndRest.2.takeWhile Char.isDigit
        if expDigits.isEmpty then .error "JSON: expected exponent digits"
        else
          .ok (signAndRest.1 * base *
                pow10Int (expSignAndRest.1 * (digitsToNat expDigits : Int)),
               expSignAndRest.2.dropWhile Char.isDigit)
      | _ => .ok (signAndRest.1 * base, afterFrac)

mutual

/-- Parse one JSON value from the front of the character list. -/
def parseJsonValue : Nat → List Char → Except String (JSVal × List Char)
  | 0, _ => .error "JSON: out of fuel"
  | fuel + 1, cs =>
    match skipWs cs with
    | 'n' :: 'u' :: 'l' :: 'l' :: rest => .ok (.vnull, rest)
    | 't' :: 'r' :: 'u' :: 'e' :: rest => .ok (.vbool true, rest)
    | 'f' :: 'a' :: 'l' :: 's' :: 'e' :: rest => .ok (.vbool false, rest)
    | '"' :: rest => do
      let (chars, rem) ← parseJsonString (fuel + 1) rest
      .ok (.vstr (String.mk chars), rem)
    | '[' :: rest =>
      (match skipWs rest with
       | ']' :: rem => .ok (.varr [], rem)
       | _ => do
         let (elems, rem) ← parseJsonArrayItems fuel rest
         .ok (.varr elems, rem))
    | '{' :: rest =>
      (match skipWs rest with
       | '}' :: rem => .ok (.vobj [], rem)
       | _ => do
         let (fields, rem) ← parseJsonObjectItems fuel rest
         .ok (.vobj fields, rem))
    | other => do
      let (q, rem) ← parseJsonNumber other
      .ok (.vnum q, rem)

/-- Parse the comma-separated items of a non-empty JSON array (after `[`). -/
def parseJsonArrayItems : Nat → List Char → Except String (List JSVal × List Char)
  | 0, _ => .error "JSON: out of fuel"
  | fuel + 1, cs => do
    let (v, rem) ← parseJsonValue fuel cs
    match skipWs rem with
    | ',' :: rest => do
      let (vs, rem2) ← parseJsonArrayItems fuel rest
      .ok (v :: vs, rem2)
    | ']' :: rest => .ok ([v], rest)
    | _ => .error "JSON: expected , or ] in array"

/-- Parse the comma-separated members of a non-empty JSON object (after `{`). -/
def parseJsonObjectItems : Nat → List Char → Except String (List (String × JSVal) × List Char)
  | 0, _ => .error "JSON: out of fuel"
  | fuel + 1, cs =>
    match skipWs cs with
    | '"' :: rest => do
      let (keyChars, rem) ← parseJsonString (fuel + 1) rest
      match skipWs rem with
      | ':' :: rest2 => do
        let (v, rem2) ← parseJsonValue fuel rest2
        match skipWs rem2 with
        | ',' :: rest3 => do
          let (fs, rem3) ← parseJsonObjectItems fuel rest3
          .ok ((String.mk keyChars, v) :: fs, rem3)
        | '}' :: rest3 => .ok ([(String.mk keyChars, v)], rest3)
        | _ => .error "JSON: expected , or \x7d in object"
      | _ => .error "JSON: expected : after key"
    | _ => .error "JSON: expected string key"

end

/-- Model of `JSON.parse`: parse one value and require only trailing
whitespace after it; any malformed input is an error (a thrown
`SyntaxError` in JavaScript).  The fuel is ample for every input whose
parse terminates, since each recursive step consumes a character. -/
def jsonParse (s : String) : Except String JSVal := do
  let (v, rem) ← parseJsonValue (s.length + 1) s.data
  if (skipWs rem).isEmpty then .ok v
  else .error "JSON: unexpected trailing characters"

/-- One declared signal's wire-to-value conversion: a parse function (which
can throw, for the `json` type) applied to attribute strings.  Mirrors the
`ParserFn` type of the source. -/
def ParserFn := String → Except String JSVal

/-- Model of the source's `PARSERS` record: the five recognised type names
and their parse functions.  `boolean` receives attribute strings only, so
the `v === true` branch of the source never fires.  `none` means the name
is not a key of the record (the `part in PARSERS` test). -/
def PARSERS (typeName : String) : Option ParserFn :=
  if typeName = "string" then some (fun v => .ok (.vstr v))
  else if typeName = "int" then some (fun v => .ok (jsParseInt v))
  else if typeName = "float" then some (fun v => .ok (jsParseFloat v))
  else if typeName = "boolean" then
    some (fun v => .ok (.vbool (v = "true" || v = "")))
  else if typeName = "json" then some jsonParse
  else none

/-- Codec of one declared signal: parse function plus already-parsed
default (`null` when the grammar has no `=` token). -/
structure SignalCodec where
  parse : ParserFn
  dflt : JSVal

/-- Split a character list at every `|`, as `codecStr.split("|")` does
(an empty string yields one empty part). -/
def splitOnPipe : List Char → List (List Char)
  | [] => [[]]
  | c :: rest =>
    match splitOnPipe rest with
    | [] => [[]]
    | h :: t => if c = '|' then [] :: h :: t else (c :: h) :: t

/-- Model of `parseCodec`: fold over the `|`-separated tokens, the last
type-name token selecting the parser and the last `=`-token giving the
default literal; every other token is ignored.  The final lookup
`PARSERS[type]` always succeeds because `type` starts as `"string"` and is
only ever set to a key of `PARSERS`; the `getD` fallback is that same
initial string parser.  Parsing the default literal can throw (for the
`json` type), which is the registration-time `CodecError`. -/
def parseCodec (codecStr : String) : Except String SignalCodec :=
  let scan := (splitOnPipe codecStr.data).foldl
    (fun (acc : String × Option String) partChars =>
      match partChars with
      | '=' :: d =>
        if (PARSERS (String.mk partChars)).isSome then (String.mk partChars, acc.2)
        else (acc.1, some (String.mk d))
      | _ =>
        if (PARSERS (String.mk partChars)).isSome then (String.mk partChars, acc.2)
        else acc)
    ("string", none)
  let parse := (PARSERS scan.1).getD (fun v => .ok (.vstr v))
  match scan.2 with
  | some d =>
    match parse d with
    | .error e => .error e
    | .ok v => .ok ⟨parse, v⟩
  | none => .ok ⟨parse, .vnull⟩

/-- Model of `toCamelCase`: the regex replace of every `-x` (with `x` a
lowercase ASCII letter) by the uppercased letter, scanning left to right. -/
def toCamelCaseAux : List Char → List Char
  | [] => []
  | ['-'] => ['-']
  | '-' :: c :: rest =>
    if 'a' ≤ c && c ≤ 'z' then c.toUpper :: toCamelCaseAux rest
    else '-' :: toCamelCaseAux (c :: rest)
  | c :: rest => c :: toCamelCaseAux rest

def toCamelCase (s : String) : String :=
  String.mk (toCamelCaseAux s.data)

/-- First character of the identifier class of the rewriter's regex
(`[a-z_]` with the `i` flag): ASCII letters and underscore. -/
def isIdentStart (c : Char) : Bool :=
  c.isAlpha || c = '_'

/-- Continuation characters of the identifier class (`[a-z0-9_]` with the
`i` flag): ASCII letters, digits and underscore. -/
def isIdentChar (c : Char) : Bool :=
  c.isAlpha || c.isDigit || c = '_'

/-- Dropping a prefix never lengthens a list (termination measure of the
rewriter below). -/
theorem dropWhile_length_le (p : Char → Bool) (l : List Char) :
    (l.dropWhile p).length ≤ l.length := by
  induction l with
  | nil => simp [List.dropWhile]
  | cons c rest ih =>
    rw [List.dropWhile]
    cases h : p c
    · simp
    · simp only [List.length_cons]
      omega

/-- Model of the global regex replace in `_namespaceSignalRefs`:
`text.replace(/\$\$([a-z_][a-z0-9_]*)/gi, "$" + ns + "_" + id)`.  Scans
left to right; a match at the current position needs two `$` followed by
an identifier (taken greedily), which is replaced by
`$<ns>_<identifier>` and the scan resumes after the match; otherwise one
character is copied.  The fuel only bounds the recursion depth: every
recursive call strictly shortens the list, so fuel equal to the input
length (as `nsRefs` supplies, see `nsRefsAuxF_congr`) always suffices. -/
def nsRefsAuxF (ns : String) : Nat → List Char → List Char
  | _, [] => []
  | 0, l => l
  | fuel + 1, c :: rest =>
    match rest with
    | c2 :: c3 :: rest3 =>
      if c = '$' ∧ c2 = '$' ∧ isIdentStart c3 then
        '$' :: (ns.data ++ '_' :: c3 ::
          (rest3.takeWhile isIdentChar ++
            nsRefsAuxF ns fuel (rest3.dropWhile isIdentChar)))
      else c :: nsRefsAuxF ns fuel rest
    | _ => c :: nsRefsAuxF ns fuel rest

/-- The rewrite at character-list level, with the always-sufficient fuel. -/
def nsRefs (ns : String) (cs : List Char) : List Char :=
  nsRefsAuxF ns cs.length cs

/-- Model of `_namespaceSignalRefs(text)`: rewrite every component-local
`$$identifier` reference in `text` to `$<namespace>_identifier`. -/
def namespaceSignalRefs (ns : String) (text : String) : String :=
  String.mk (nsRefs ns text.data)

/-- One registered cleanup action, identified by a tag; `throws` records
whether calling it raises an exception (which `disconnectedCallback`
catches and logs). -/
structure Cleanup where
  tag : Nat
  throws : Bool
deriving DecidableEq, Repr

/-- Mutable per-instance state of a `StarElement`, as set up by the
constructor (source lines 89-95): the signal namespace, the hydrating
flag, the ordered cleanup list, the resolved-import map and the connected
flag.  The import map is an insertion-ordered association list, mirroring
a JavaScript object. -/
structure InstanceState where
  ns : String
  hydrating : Bool
  cleanups : List Cleanup
  importsMap : List (String × JSVal)
  connected : Bool

/-- JavaScript object assignment `m[k] = v` on an insertion-ordered
association list: an existing key is updated in place, a new key is
appended. -/
def assocSet (m : List (String × JSVal)) (k : String) (v : JSVal) :
    List (String × JSVal) :=
  if m.any (fun p => p.1 = k) then
    m.map (fun p => if p.1 = k then (k, v) else p)
  else m ++ [(k, v)]

/-- The external Datastar signal store, keyed by flat signal names;
`none` means the key is absent. -/
abbrev Store := String → Option JSVal

/-- The page's global `window` object, as far as the runtime reads and
writes module/script globals on it. -/
abbrev Window := String → Option JSVal

/-- Model of Datastar's `mergePatch`: merge the patch's keys into the
store, an explicit `null` deleting its key (JSON Merge Patch, RFC 7386).
Patches built by the runtime have pairwise distinct keys, so first-match
lookup agrees with JavaScript object semantics. -/
def mergePatch (patch : List (String × JSVal)) (st : Store) : Store :=
  fun k =>
    match patch.lookup k with
    | some .vnull => none
    | some v => some v
    | none => st k

/-- Model of the `StarElement` constructor (source lines 89-95): a
server-supplied `data-star-id` attribute (when truthy) becomes the
namespace verbatim and sets the hydrating flag; otherwise the namespace is
synthesised from the tag name (hyphens replaced by underscores) and the
process-wide counter, which is incremented.  Returns the new instance
state and the new counter. -/
def newStarElement (name : String) (attrs : List (String × String))
    (counter : Nat) : InstanceState × Nat :=
  let generated : String :=
    "_star_" ++ String.mk (name.data.map (fun c => if c = '-' then '_' else c)) ++
      "_id" ++ toString counter
  match attrs.lookup "data-star-id" with
  | some serverId =>
    if serverId = "" then (⟨generated, false, [], [], false⟩, counter + 1)
    else (⟨serverId, true, [], [], false⟩, counter)
  | none => (⟨generated, false, [], [], false⟩, counter + 1)

/-- Test that the first list is a leading segment of the second (model of
`name.startsWith(pfx)`). -/
def leadsWith : List Char → List Char → Bool
  | [], _ => true
  | _ :: _, [] => false
  | a :: as, b :: bs => a = b && leadsWith as bs

/-- Model of `extractPrefixedAttrs`: one pass over the element's
attributes in declaration order; every attribute whose name starts with
the given marker is stripped of it and its value put through `valueFn`.
A throwing `valueFn` (the codec parser on a bad default) propagates
immediately, as a JavaScript exception would. -/
def extractPrefixedAttrs {α : Type} (attrs : List (String × String))
    (pfx : String) (valueFn : String → Except String α) :
    Except String (List (String × α)) :=
  match attrs with
  | [] => .ok []
  | (n, v) :: rest =>
    if leadsWith pfx.data n.data then
      match valueFn v with
      | .error e => .error e
      | .ok x =>
        match extractPrefixedAttrs rest pfx valueFn with
        | .error e => .error e
        | .ok r => .ok ((String.mk (n.data.drop pfx.data.length), x) :: r)
    else extractPrefixedAttrs rest pfx valueFn

/-- A `<template>` element as the registration pass consumes it: its
attribute list and the text of its (non-static) setup script.  The
one-time static script's source is kept for completeness; its execution is
external user code whose errors registration catches and logs. -/
structure Template where
  attrs : List (String × String)
  setupCode : String
  staticCode : Option String

/-- Immutable per-tag component definition produced by registration
(closed over by the generated `StarElement` class). -/
structure ComponentDef where
  name : String
  signals : List (String × SignalCodec)
  imports : List (String × String)
  scripts : List (String × String)
  useShadow : Bool
  shadowMode : String
  setupCode : String

/-- Model of `registerStarElement`: extract the declared signals (parsing
each codec grammar string), the ES-module imports and the legacy script
imports, read the shadow-DOM flags, and capture the setup source.  A codec
parse error (`CodecError`) escapes this function uncaught. -/
def registerStarElement (name : String) (t : Template) :
    Except String ComponentDef :=
  match extractPrefixedAttrs t.attrs "data-signal:" parseCodec with
  | .error e => .error e
  | .ok signals =>
    match extractPrefixedAttrs t.attrs "data-import:" (fun v => .ok v) with
    | .error e => .error e
    | .ok importList =>
      match extractPrefixedAttrs t.attrs "data-script:" (fun v => .ok v) with
      | .error e => .error e
      | .ok scriptList =>
        let useShadow := t.attrs.any (fun a => a.1 = "data-shadow-open") ||
          t.attrs.any (fun a => a.1 = "data-shadow-closed")
        let shadowMode :=
          if t.attrs.any (fun a => a.1 = "data-shadow-closed") then "closed"
          else "open"
        .ok ⟨name, signals, importList, scriptList, useShadow, shadowMode,
          t.setupCode⟩

/-- The component name of a template: the first attribute whose name
starts with `data-star:`, with that marker removed (the source's
`replace("data-star:", "")` removes the first occurrence, which is the
leading one). -/
def findStarName (t : Template) : Option String :=
  (t.attrs.find? (fun a => leadsWith "data-star:".data a.1.data)).map
    (fun a => String.mk (a.1.data.drop "data-star:".length))

/-- Model of `initStarElements`: scan the page's templates in document
order, registering each `data-star:` template.  The loop body has no
exception handler, so an uncaught codec error stops the loop: the
definitions registered before it persist (their `customElements.define`
already ran) and every later template is skipped.  Returns the registered
definitions in order and the escaped error, if any. -/
def initStarElements (templates : List Template) :
    List (String × ComponentDef) × Option String :=
  match templates with
  | [] => ([], none)
  | t :: rest =>
    match findStarName t with
    | none => initStarElements rest
    | some name =>
      match registerStarElement name t with
      | .error e => ([], some e)
      | .ok cd =>
        let r := initStarElements rest
        ((name, cd) :: r.1, r.2)

/-- Model of `_buildSignalValues`: for every declared signal in
declaration order, the camel-cased name mapped to the parsed current
attribute value, or to the codec default when the attribute is absent.
A throwing parse (malformed `json` attribute) propagates. -/
def buildSignalValues (signals : List (String × SignalCodec))
    (attrs : List (String × String)) : Except String (List (String × JSVal)) :=
  match signals with
  | [] => .ok []
  | (nm, c) :: rest =>
    let entryVal : Except String JSVal :=
      match attrs.lookup nm with
      | some v => c.parse v
      | none => .ok c.dflt
    match entryVal with
    | .error e => .error e
    | .ok v =>
      match buildSignalValues rest attrs with
      | .error e => .error e
      | .ok r => .ok ((toCamelCase nm, v) :: r)

/-- External behaviour of the platform during dependency loading: the
result of `import(url)` (`none` = the promise rejects), whether an
injected `<script src=url>` fires `load` rather than `error`, and the
effect the loaded script has on the global `window`. -/
structure LoadEnv where
  importResolve : String → Option JSVal
  scriptOk : String → Bool
  scriptEffect : String → Window → Window

/-- Assignment to one `window` property. -/
def updWindow (w : Window) (k : String) (v : JSVal) : Window :=
  fun k' => if k' = k then some v else w k'

/-- Console message logged when a dynamic import rejects. -/
def esmFailMsg (aliasName url : String) : String :=
  "[starelements] Failed to load " ++ aliasName ++ " from " ++ url ++ ":"

/-- Console message logged when an injected script fires `error`. -/
def scriptFailMsg (aliasName url : String) : String :=
  "[starelements] Failed to load " ++ aliasName ++ " from " ++ url

/-- JavaScript `a || b` on possibly-absent values: the first operand when
truthy, else the second. -/
def jsOr (a b : Option JSVal) : Option JSVal :=
  if truthy a then a else b

/-- Capitalised casing variant used by `findGlobal`
(`alias[0].toUpperCase() + alias.slice(1)`). -/
def pascalCase (s : String) : String :=
  String.mk ((s.data.take 1).map Char.toUpper ++ s.data.drop 1)

/-- Model of `findGlobal`: probe `window` under the exact, capitalised and
all-caps casing variants of the alias, returning the first truthy hit
(else the last probe's value). -/
def findGlobal (w : Window) (aliasName : String) : Option JSVal :=
  jsOr (w aliasName) (jsOr (w (pascalCase aliasName))
    (w (String.mk (aliasName.data.map Char.toUpper))))

/-- One iteration of the ES-module import loop's conditional (source
lines 153-159): dynamically import the specifier unless a truthy global
of the alias already exists (the process-wide cache), logging a rejected
promise instead of failing.  Returns the window afterwards and the log. -/
def esmStep (env : LoadEnv) (w : Window) (aliasName url : String) :
    Window × List String :=
  if truthy (w aliasName) then (w, [])
  else
    match env.importResolve url with
    | some v => (updWindow w aliasName v, [])
    | none => (w, [esmFailMsg aliasName url])

/-- The ES-module half of `_loadImports` (source lines 151-161): for each
declared import in order, run `esmStep`, then bind the alias in the
instance's import map to whatever the global now holds (`undefined` when
the import failed).  Returns the final window, import map and log. -/
def loadEsmImports (env : LoadEnv) :
    List (String × String) → Window → List (String × JSVal) →
    Window × List (String × JSVal) × List String
  | [], w, m => (w, m, [])
  | (aliasName, url) :: rest, w, m =>
    let step := esmStep env w aliasName url
    let m2 := assocSet m aliasName (optVal (step.1 aliasName))
    let next := loadEsmImports env rest step.1 m2
    (next.1, next.2.1, step.2 ++ next.2.2)

/-- One iteration of the legacy-script loop's conditional (source lines
169-178): inject a `<script src>` unless a matching global already exists
under some casing variant, waiting for its load/error event and logging
an error. -/
def scriptStep (env : LoadEnv) (w : Window) (aliasName url : String) :
    Window × List String :=
  if truthy (findGlobal w aliasName) then (w, [])
  else if env.scriptOk url then (env.scriptEffect url w, [])
  else (w, [scriptFailMsg aliasName url])

/-- The legacy-script half of `_loadImports` (source lines 163-180): for
each declared script in order, run `scriptStep`, then bind the alias to
the global found afterwards. -/
def loadScriptImports (env : LoadEnv) :
    List (String × String) → Window → List (String × JSVal) →
    Window × List (String × JSVal) × List String
  | [], w, m => (w, m, [])
  | (aliasName, url) :: rest, w, m =>
    let step := scriptStep env w aliasName url
    let m2 := assocSet m aliasName (optVal (findGlobal step.1 aliasName))
    let next := loadScriptImports env rest step.1 m2
    (next.1, next.2.1, step.2 ++ next.2.2)

/-- Model of `_loadImports`: the ES-module loop followed by the
legacy-script loop, threading `window` and the instance's import map. -/
def loadImports (env : LoadEnv) (esm scripts : List (String × String))
    (w : Window) (m : List (String × JSVal)) :
    Window × List (String × JSVal) × List String :=
  let r1 := loadEsmImports env esm w m
  let r2 := loadScriptImports env scripts r1.1 r1.2.1
  (r2.1, r2.2.1, r1.2.2 ++ r2.2.2)

/-- The setup source is considered empty when it is all whitespace
(`!code.trim()` in `_runSetup`). -/
def isBlank (s : String) : Bool :=
  s.data.all isWsChar

/-- Console message for an error caught by `connectedCallback`'s outer
handler. -/
def connErrMsg (name e : String) : String :=
  "[starelements] connectedCallback error in <" ++ name ++ ">:" ++ e

/-- Observable outcome of one `connectedCallback` run.  DOM-only effects
are tracked as flags: `cloned`/`attached` record template-content cloning
and subtree attachment, `scanFired` the bubbling `datastar:scan` event,
`readyAttr` the `data-star-ready` attribute, `setupRan` whether the setup
script was compiled and executed (its user-code body is external, and its
exceptions are caught inside `_runSetup`).  The serialised `data-signals`
mirror attribute duplicates the `mergePatch` already applied to `store`
and is not modelled further. -/
structure MountResult where
  inst : InstanceState
  window : Window
  store : Store
  log : List String
  cloned : Bool
  attached : Bool
  scanFired : Bool
  readyAttr : Bool
  earlyReturn : Bool
  setupRan : Bool

/-- Model of `connectedCallback` (source lines 101-132): await
`_loadImports`; abort with no further side effects if the element was
detached during the await (`stillConnected`); compute the initial signal
values from the current attributes; when not hydrating, clone the template
content, strip its scripts, rewrite signal references and attach it; then
publish the namespaced initial values into the store, run the setup
script, fire the rescan event, mark the instance connected and set the
ready attribute.  A throw (a codec parse failure on an attribute) is
caught by the outer handler and logged, leaving the instance neither
connected nor ready. -/
def connectedCallback (cd : ComponentDef) (env : LoadEnv)
    (attrs : List (String × String)) (stillConnected : Bool)
    (inst0 : InstanceState) (w0 : Window) (st0 : Store) : MountResult :=
  let load := loadImports env cd.imports cd.scripts w0 inst0.importsMap
  let inst1 := { inst0 with importsMap := load.2.1 }
  if !stillConnected then
    ⟨inst1, load.1, st0, load.2.2, false, false, false, false, true, false⟩
  else
    match buildSignalValues cd.signals attrs with
    | .error e =>
      ⟨inst1, load.1, st0, load.2.2 ++ [connErrMsg cd.name e],
        false, false, false, false, false, false⟩
    | .ok vals =>
      let didClone := !inst1.hydrating
      let signalData := vals.map (fun kv => (inst1.ns ++ "_" ++ kv.1, kv.2))
      ⟨{ inst1 with connected := true }, load.1, mergePatch signalData st0,
        load.2.2, didClone, didClone, true, true, false,
        !isBlank cd.setupCode⟩

/-- Run the registered cleanup actions in order, swallowing exceptions:
returns the tags executed (all of them, in registration order) and the
tags whose call threw (logged by the source). -/
def runCleanups : List Cleanup → List Nat × List Nat
  | [] => ([], [])
  | c :: rest =>
    let r := runCleanups rest
    (c.tag :: r.1, if c.throws then c.tag :: r.2 else r.2)

/-- Model of `_removeSignals`: the merge patch mapping every declared
signal's namespaced key to `null` (deleting it under RFC 7386). -/
def removeSignalsPatch (signals : List (String × SignalCodec))
    (ns : String) : List (String × JSVal) :=
  signals.map (fun s => (ns ++ "_" ++ toCamelCase s.1, .vnull))

/-- Observable outcome of one `disconnectedCallback` run. -/
structure DisconnectResult where
  inst : InstanceState
  store : Store
  executed : List Nat
  logged : List Nat

/-- Model of `disconnectedCallback` (source lines 134-141): clear the
connected flag, run every registered cleanup (logging, not propagating,
individual failures), empty the cleanup list and apply the
signal-deleting merge patch. -/
def disconnectedCallback (signals : List (String × SignalCodec))
    (inst : InstanceState) (st : Store) : DisconnectResult :=
  let r := runCleanups inst.cleanups
  { inst := { inst with connected := false, cleanups := [] },
    store := mergePatch (removeSignalsPatch signals inst.ns) st,
    executed := r.1,
    logged := r.2 }

/-- Model of `attributeChangedCallback` (source lines 143-149): no store
write when the value did not change or the instance is not yet connected;
otherwise patch the namespaced camel-cased key with the codec-parsed new
value — the raw string when the attribute has no declared codec, and
`null` when the attribute was removed.  A throwing parse propagates. -/
def attributeChangedCallback (signals : List (String × SignalCodec))
    (inst : InstanceState) (attrName : String)
    (oldVal newVal : Option String) :
    Except String (Option (List (String × JSVal))) :=
  if oldVal = newVal ∨ inst.connected = false then .ok none
  else
    let fullName := inst.ns ++ "_" ++ toCamelCase attrName
    match newVal, signals.lookup attrName with
    | some v, some c =>
      match c.parse v with
      | .error e => .error e
      | .ok pv => .ok (some [(fullName, pv)])
    | some v, none => .ok (some [(fullName, .vstr v)])
    | none, _ => .ok (some [(fullName, .vnull)])

/-- A segmentation of an attribute value (or script text) into the three
kinds of pieces the rewriter's sigil rule distinguishes: literal text,
global single-sigil references `$id`, and component-local double-sigil
references `$$id`. -/
inductive SigTok where
  | plain (s : String) : SigTok
  | glob (id : String) : SigTok
  | loc (id : String) : SigTok

/-- The concrete text of one piece. -/
def SigTok.render : SigTok → String
  | .plain s => s
  | .glob id => "$" ++ id
  | .loc id => "$" ++ "$" ++ id

/-- What the namespace rewrite is specified to do to one piece: local
references become namespace-qualified global references, everything else
is untouched. -/
def SigTok.rewrite (ns : String) : SigTok → SigTok
  | .plain s => .plain s
  | .glob id => .glob id
  | .loc id => .glob (ns ++ "_" ++ id)

/-- The concrete text of a piece list. -/
def renderToks (ts : List SigTok) : String :=
  ts.foldr (fun t acc => t.render ++ acc) ""

/-- A nonempty identifier of the rewriter's regex class. -/
def validIdentChars (cs : List Char) : Bool :=
  match cs with
  | [] => false
  | c :: rest => isIdentStart c && rest.all isIdentChar

/-- Well-formedness of one piece: literal text is nonempty and free of
the sigil character, and references carry valid identifiers. -/
def tokOk : SigTok → Bool
  | .plain s => !s.isEmpty && s.data.all (fun c => c ≠ '$')
  | .glob id => validIdentChars id.data
  | .loc id => validIdentChars id.data

/-- Whether a piece's first character cannot extend a preceding
identifier (references start with the sigil, which cannot). -/
def headBlocksIdent : SigTok → Bool
  | .plain s =>
    match s.data with
    | [] => false
    | c :: _ => !isIdentChar c
  | .glob _ => true
  | .loc _ => true

/-- Well-formedness of a segmentation: every piece is well formed and a
local reference is never followed directly by text that would extend its
identifier (such text would belong to the identifier, so the segmentation
would misrepresent the string). -/
def wfToks : List SigTok → Bool
  | [] => true
  | [t] => tokOk t
  | t :: t2 :: rest =>
    tokOk t &&
      (match t with | .loc _ => headBlocksIdent t2 | _ => true) &&
      wfToks (t2 :: rest)

/-!
Theorems.  The lemmas below establish how the signal-reference rewriter
acts on well-segmented text, then the claim theorems follow.
-/

/-- Fuel above the input length is irrelevant to the rewriter. -/
theorem nsRefsAuxF_congr (ns : String) :
    ∀ fuel1 fuel2 cs, cs.length ≤ fuel1 → cs.length ≤ fuel2 →
      nsRefsAuxF ns fuel1 cs = nsRefsAuxF ns fuel2 cs := by
  intro fuel1
  induction fuel1 with
  | zero =>
    intro fuel2 cs h1 h2
    have hcs : cs = [] := by
      cases cs with
      | nil => rfl
      | cons a as => simp at h1
    subst hcs
    cases fuel2 <;> rfl
  | succ f ih =>
    intro fuel2 cs h1 h2
    cases cs with
    | nil => cases fuel2 <;> rfl
    | cons c rest =>
      cases fuel2 with
      | zero => simp at h2
      | succ f2 =>
        simp only [List.length_cons, Nat.succ_le_succ_iff] at h1 h2
        cases rest with
        | nil =>
          show c :: nsRefsAuxF ns f [] = c :: nsRefsAuxF ns f2 []
          cases f <;> cases f2 <;> rfl
        | cons c2 rest2 =>
          cases rest2 with
          | nil =>
            show c :: nsRefsAuxF ns f [c2] = c :: nsRefsAuxF ns f2 [c2]
            exact congrArg _ (ih f2 [c2] (by simpa using h1) (by simpa using h2))
          | cons c3 rest3 =>
            have hlen : rest3.length + 2 ≤ f := by simpa using h1
            have hlen2 : rest3.length + 2 ≤ f2 := by simpa using h2
            simp only [nsRefsAuxF]
            by_cases hm : c = '$' ∧ c2 = '$' ∧ isIdentStart c3
            · rw [if_pos hm, if_pos hm]
              have hd := dropWhile_length_le isIdentChar rest3
              rw [ih f2 (rest3.dropWhile isIdentChar) (by omega) (by omega)]
            · rw [if_neg hm, if_neg hm]
              rw [ih f2 (c2 :: c3 :: rest3) (by simp; omega) (by simp; omega)]

/-- The rewriter with any sufficient fuel computes `nsRefs`. -/
theorem nsRefsAuxF_eq_nsRefs (ns : String) (fuel : Nat) (cs : List Char)
    (h : cs.length ≤ fuel) : nsRefsAuxF ns fuel cs = nsRefs ns cs :=
  nsRefsAuxF_congr ns fuel cs.length cs h le_rfl

/-- A character other than the sigil is copied unchanged. -/
theorem nsRefs_not_dollar (ns : String) (c : Char) (rest : List Char)
    (hc : c ≠ '$') : nsRefs ns (c :: rest) = c :: nsRefs ns rest := by
  cases rest with
  | nil => rfl
  | cons c2 rest2 =>
    cases rest2 with
    | nil => rfl
    | cons c3 rest3 =>
      have hcond : ¬(c = '$' ∧ c2 = '$' ∧ isIdentStart c3 = true) := by
        intro h; exact hc h.1
      show nsRefsAuxF ns ((c2 :: c3 :: rest3).length + 1) _ = _
      simp only [nsRefsAuxF, nsRefs, hcond, if_false, List.length_cons]

/-- A sigil not followed by a second sigil is copied unchanged. -/
theorem nsRefs_dollar_not_dollar (ns : String) (c2 : Char) (rest : List Char)
    (hc2 : c2 ≠ '$') :
    nsRefs ns ('$' :: c2 :: rest) = '$' :: nsRefs ns (c2 :: rest) := by
  cases rest with
  | nil => rfl
  | cons c3 rest3 =>
    show nsRefsAuxF ns ((c2 :: c3 :: rest3).length + 1) _ = _
    simp [nsRefsAuxF, nsRefs, hc2]

/-- A double sigil followed by an identifier-start character is replaced:
the sigil, the namespace, an underscore and the greedily taken
identifier, the scan resuming after it. -/
theorem nsRefs_match (ns : String) (c3 : Char) (rest3 : List Char)
    (h3 : isIdentStart c3) :
    nsRefs ns ('$' :: '$' :: c3 :: rest3) =
      '$' :: (ns.data ++ '_' :: c3 ::
        (rest3.takeWhile isIdentChar ++ nsRefs ns (rest3.dropWhile isIdentChar))) := by
  have hfuel := nsRefsAuxF_eq_nsRefs ns (rest3.length + 1 + 1)
    (rest3.dropWhile isIdentChar)
    (by have := dropWhile_length_le isIdentChar rest3; omega)
  show nsRefsAuxF ns ((c3 :: rest3).length + 2) _ = _
  simp [nsRefsAuxF, h3, hfuel]

/-- Sigil-free text passes through the rewriter unchanged, whatever
follows it. -/
theorem nsRefs_plain_append (ns : String) (p rest : List Char)
    (h : ∀ c ∈ p, c ≠ '$') :
    nsRefs ns (p ++ rest) = p ++ nsRefs ns rest := by
  induction p with
  | nil => rfl
  | cons c cs ih =>
    rw [List.cons_append, nsRefs_not_dollar ns c (cs ++ rest) (h c (by simp)),
      ih (fun x hx => h x (by simp [hx])), List.cons_append]

/-- Taking the longest satisfying prefix of a concatenation whose left part
all satisfies the predicate and whose right part starts with a failing
character keeps exactly the left part. -/
theorem takeWhile_append_blocked (p : Char → Bool) (l rest : List Char)
    (hall : ∀ c ∈ l, p c)
    (hrest : match rest with | [] => True | c :: _ => p c = false) :
    (l ++ rest).takeWhile p = l := by
  induction l with
  | nil =>
    cases rest with
    | nil => rfl
    | cons c r => simp only [List.nil_append, List.takeWhile]; rw [hrest]
  | cons c cs ih =>
    simp only [List.cons_append, List.takeWhile]
    rw [hall c (by simp)]
    simp [ih (fun x hx => hall x (by simp [hx]))]

/-- Dropping counterpart of `takeWhile_append_blocked`: exactly the right
part remains. -/
theorem dropWhile_append_blocked (p : Char → Bool) (l rest : List Char)
    (hall : ∀ c ∈ l, p c)
    (hrest : match rest with | [] => True | c :: _ => p c = false) :
    (l ++ rest).dropWhile p = rest := by
  induction l with
  | nil =>
    cases rest with
    | nil => rfl
    | cons c r => simp only [List.nil_append, List.dropWhile]; rw [hrest]
  | cons c cs ih =>
    simp only [List.cons_append, List.dropWhile]
    rw [hall c (by simp)]
    exact ih (fun x hx => hall x (by simp [hx]))

/-- Identifier-class characters are never the sigil. -/
theorem identChar_ne_dollar (c : Char) (h : isIdentChar c = true) : c ≠ '$' := by
  intro hc
  subst hc
  simp [isIdentChar, Char.isAlpha, Char.isUpper, Char.isLower, Char.isDigit] at h

/-- Identifier-start characters are identifier characters. -/
theorem identStart_identChar (c : Char) (h : isIdentStart c = true) :
    isIdentChar c = true := by
  simp only [isIdentStart, Bool.or_eq_true] at h
  rcases h with h | h <;> simp [isIdentChar, h]

/-- A global single-sigil reference passes through the rewriter
unchanged, whatever follows it. -/
theorem nsRefs_glob_step (ns : String) (id rest : List Char)
    (hid : validIdentChars id = true) :
    nsRefs ns ('$' :: id ++ rest) = '$' :: id ++ nsRefs ns rest := by
  cases id with
  | nil => simp [validIdentChars] at hid
  | cons c cs =>
    simp only [validIdentChars, Bool.and_eq_true, List.all_eq_true] at hid
    have hcne : c ≠ '$' := identChar_ne_dollar c (identStart_identChar c hid.1)
    have hcs : ∀ x ∈ cs, x ≠ '$' :=
      fun x hx => identChar_ne_dollar x (hid.2 x hx)
    simp only [List.cons_append]
    rw [nsRefs_dollar_not_dollar ns c (cs ++ rest) hcne,
      nsRefs_not_dollar ns c (cs ++ rest) hcne,
      nsRefs_plain_append ns cs rest hcs]

/-- A component-local double-sigil reference, followed by nothing or by a
character that cannot extend its identifier, is rewritten to the
namespace-qualified single-sigil reference. -/
theorem nsRefs_loc_step (ns : String) (id rest : List Char)
    (hid : validIdentChars id = true)
    (hrest : match rest with | [] => True | c :: _ => isIdentChar c = false) :
    nsRefs ns ('$' :: '$' :: id ++ rest) =
      '$' :: ns.data ++ '_' :: id ++ nsRefs ns rest := by
  cases id with
  | nil => simp [validIdentChars] at hid
  | cons c cs =>
    simp only [validIdentChars, Bool.and_eq_true, List.all_eq_true] at hid
    simp only [List.cons_append]
    rw [nsRefs_match ns c (cs ++ rest) hid.1,
      takeWhile_append_blocked isIdentChar cs rest (fun x hx => hid.2 x hx) hrest,
      dropWhile_append_blocked isIdentChar cs rest (fun x hx => hid.2 x hx) hrest]
    simp

/-- Rendering distributes over the head of a piece list. -/
theorem renderToks_cons_data (t : SigTok) (ts : List SigTok) :
    (renderToks (t :: ts)).data = t.render.data ++ (renderToks ts).data := by
  show (t.render ++ renderToks ts).data = _
  rw [String.data_append]

/-- Characters of a global reference. -/
theorem render_glob_data (id : String) :
    (SigTok.glob id).render.data = '$' :: id.data := by
  show (("$" ++ id)).data = _
  rw [String.data_append]
  rfl

/-- Characters of a component-local reference. -/
theorem render_loc_data (id : String) :
    (SigTok.loc id).render.data = '$' :: '$' :: id.data := by
  show (("$" ++ "$" ++ id)).data = _
  rw [String.data_append, String.data_append]
  rfl

/-- After a piece whose head cannot extend an identifier, the rendered
remainder starts (if at all) with a character outside the identifier
class. -/
theorem renderToks_head_blocked (t2 : SigTok) (ts2 : List SigTok)
    (hb : headBlocksIdent t2 = true) :
    match (renderToks (t2 :: ts2)).data with
    | [] => True
    | c :: _ => isIdentChar c = false := by
  rw [renderToks_cons_data]
  cases t2 with
  | plain s =>
    simp only [headBlocksIdent] at hb
    cases hs : s.data with
    | nil => rw [hs] at hb; simp at hb
    | cons c cs =>
      rw [hs] at hb
      simp only [Bool.not_eq_true'] at hb
      show match (SigTok.plain s).render.data ++ _ with
        | [] => True | c :: _ => isIdentChar c = false
      show match s.data ++ _ with | [] => True | c :: _ => isIdentChar c = false
      rw [hs]
      exact hb
  | glob id =>
    rw [render_glob_data]
    show isIdentChar '$' = false
    decide
  | loc id =>
    rw [render_loc_data]
    show isIdentChar '$' = false
    decide

/-- Nonempty sigil-free text from a well-formed plain piece. -/
theorem tokOk_plain_chars (s : String) (h : tokOk (SigTok.plain s) = true) :
    ∀ c ∈ s.data, c ≠ '$' := by
  simp only [tokOk, Bool.and_eq_true, List.all_eq_true, decide_eq_true_eq] at h
  exact h.2

/-- Character-level statement of the rewriter's action on a well-formed
segmentation: every component-local reference is replaced by its
namespace-qualified form and everything else is copied verbatim. -/
theorem nsRefs_renderToks (ns : String) (ts : List SigTok)
    (h : wfToks ts = true) :
    nsRefs ns (renderToks ts).data =
      (renderToks (ts.map (SigTok.rewrite ns))).data := by
  induction ts with
  | nil => rfl
  | cons t ts ih =>
    have hwf : tokOk t = true ∧ wfToks ts = true := by
      cases ts with
      | nil => exact ⟨h, rfl⟩
      | cons t2 ts2 =>
        simp only [wfToks, Bool.and_eq_true] at h
        exact ⟨h.1.1, h.2⟩
    rw [List.map_cons, renderToks_cons_data, renderToks_cons_data]
    cases t with
    | plain s =>
      rw [show (SigTok.plain s).render.data = s.data from rfl,
        nsRefs_plain_append ns s.data (renderToks ts).data
          (tokOk_plain_chars s hwf.1), ih hwf.2]
      rfl
    | glob id =>
      rw [render_glob_data,
        nsRefs_glob_step ns id.data (renderToks ts).data hwf.1,
        ih hwf.2,
        show SigTok.rewrite ns (SigTok.glob id) = SigTok.glob id from rfl,
        render_glob_data]
    | loc id =>
      have hblock : (match (renderToks ts).data with
          | [] => True
          | c :: _ => isIdentChar c = false) := by
        cases ts with
        | nil => exact trivial
        | cons t2 ts2 =>
          have hb2 : headBlocksIdent t2 = true := by
            simp only [wfToks, Bool.and_eq_true] at h
            exact h.1.2
          exact renderToks_head_blocked t2 ts2 hb2
      rw [render_loc_data,
        nsRefs_loc_step ns id.data (renderToks ts).data hwf.1 hblock,
        ih hwf.2,
        show SigTok.rewrite ns (SigTok.loc id) = SigTok.glob (ns ++ "_" ++ id)
          from rfl,
        render_glob_data, String.data_append, String.data_append]
      simp

/-- The string-level rewrite of a well-formed segmentation. -/
theorem namespaceSignalRefs_renderToks (ns : String) (ts : List SigTok)
    (h : wfToks ts = true) :
    namespaceSignalRefs ns (renderToks ts) =
      renderToks (ts.map (SigTok.rewrite ns)) := by
  show String.mk (nsRefs ns (renderToks ts).data) = _
  rw [nsRefs_renderToks ns ts h]

/-- Looking up the key just put at the head of an association list. -/
theorem lookup_cons_self {β : Type} (k : String) (v : β)
    (rest : List (String × β)) :
    List.lookup k ((k, v) :: rest) = some v := by
  simp [List.lookup]

/-- Looking up a different key skips the head of an association list. -/
theorem lookup_cons_ne {β : Type} (a k : String) (h : a ≠ k) (v : β)
    (rest : List (String × β)) :
    List.lookup a ((k, v) :: rest) = List.lookup a rest := by
  simp [List.lookup, beq_false_of_ne h]

/-- A successful lookup returns one of the list's values. -/
theorem lookup_mem_values {β : Type} (k : String) (v : β) :
    ∀ (l : List (String × β)), List.lookup k l = some v → v ∈ l.map Prod.snd := by
  intro l
  induction l with
  | nil => intro h; simp [List.lookup] at h
  | cons p rest ih =>
    obtain ⟨k1, v1⟩ := p
    intro h
    by_cases hk : k = k1
    · subst hk
      rw [lookup_cons_self k v1 rest] at h
      injection h with h
      simp [h]
    · rw [lookup_cons_ne k k1 hk v1 rest] at h
      simp [ih h]

/-- Lookup through the in-place update of an existing key. -/
theorem lookup_map_update_self (k : String) (v : JSVal) :
    ∀ (m : List (String × JSVal)), m.any (fun p => p.1 = k) = true →
      List.lookup k (m.map (fun p => if p.1 = k then (k, v) else p)) = some v := by
  intro m
  induction m with
  | nil => intro h; simp at h
  | cons p rest ih =>
    intro hany
    obtain ⟨k1, v1⟩ := p
    simp only [List.map_cons]
    by_cases hk : k1 = k
    · rw [if_pos hk]
      exact lookup_cons_self k v _
    · rw [if_neg hk, lookup_cons_ne k k1 (fun hh => hk hh.symm) v1 _]
      apply ih
      simp only [List.any_cons, Bool.or_eq_true, decide_eq_true_eq] at hany
      rcases hany with h | h
      · exact absurd h hk
      · exact h

/-- Lookup of a different key through an in-place update. -/
theorem lookup_map_update_ne (k a : String) (v : JSVal) (h : a ≠ k) :
    ∀ (m : List (String × JSVal)),
      List.lookup a (m.map (fun p => if p.1 = k then (k, v) else p)) =
        List.lookup a m := by
  intro m
  induction m with
  | nil => rfl
  | cons p rest ih =>
    obtain ⟨k1, v1⟩ := p
    simp only [List.map_cons]
    by_cases hk : k1 = k
    · rw [if_pos hk, lookup_cons_ne a k h v _, hk,
        lookup_cons_ne a k h v1 rest]
      exact ih
    · rw [if_neg hk]
      by_cases hap : a = k1
      · subst hap
        rw [lookup_cons_self a v1 _, lookup_cons_self a v1 rest]
      · rw [lookup_cons_ne a k1 hap v1 _, lookup_cons_ne a k1 hap v1 rest]
        exact ih

/-- Lookup of a fresh key appended at the end of an association list none
of whose keys matches it. -/
theorem lookup_append_single_self (k : String) (v : JSVal) :
    ∀ (m : List (String × JSVal)), m.any (fun p => p.1 = k) = false →
      List.lookup k (m ++ [(k, v)]) = some v := by
  intro m
  induction m with
  | nil => exact fun _ => lookup_cons_self k v []
  | cons p rest ih =>
    intro hany
    obtain ⟨k1, v1⟩ := p
    simp only [List.any_cons, Bool.or_eq_false_iff, decide_eq_true_eq] at hany
    have hk : k ≠ k1 := fun hh => by
      have := hany.1
      simp [hh.symm] at this
    simp only [List.cons_append]
    rw [lookup_cons_ne k k1 hk v1 _]
    exact ih hany.2

/-- Lookup of a different key ignores an appended binding. -/
theorem lookup_append_single_ne (k a : String) (v : JSVal) (h : a ≠ k) :
    ∀ (m : List (String × JSVal)),
      List.lookup a (m ++ [(k, v)]) = List.lookup a m := by
  intro m
  induction m with
  | nil => simp [List.lookup, beq_false_of_ne h]
  | cons p rest ih =>
    obtain ⟨k1, v1⟩ := p
    simp only [List.cons_append]
    by_cases hap : a = k1
    · subst hap
      rw [lookup_cons_self a v1 _, lookup_cons_self a v1 rest]
    · rw [lookup_cons_ne a k1 hap v1 _, lookup_cons_ne a k1 hap v1 rest]
      exact ih

/-- JavaScript object assignment then lookup of the same key. -/
theorem lookup_assocSet_self (m : List (String × JSVal)) (k : String)
    (v : JSVal) : List.lookup k (assocSet m k v) = some v := by
  unfold assocSet
  split
  · exact lookup_map_update_self k v m (by assumption)
  · exact lookup_append_single_self k v m (by
      rename_i hany
      exact Bool.not_eq_true _ ▸ Bool.of_not_eq_true hany)

/-- JavaScript object assignment leaves other keys' bindings unchanged. -/
theorem lookup_assocSet_ne (m : List (String × JSVal)) (k a : String)
    (v : JSVal) (h : a ≠ k) :
    List.lookup a (assocSet m k v) = List.lookup a m := by
  unfold assocSet
  split
  · exact lookup_map_update_ne k a v h m
  · exact lookup_append_single_ne k a v h m

/-- Merging a patch headed by a non-null binding sets that key. -/
theorem mergePatch_head_set (k : String) (v : JSVal)
    (rest : List (String × JSVal)) (st : Store) (hv : v ≠ .vnull) :
    mergePatch ((k, v) :: rest) st k = some v := by
  unfold mergePatch
  rw [lookup_cons_self k v rest]
  cases v <;> simp_all

/-- Merging a patch headed by a null binding deletes that key. -/
theorem mergePatch_head_null (k : String) (rest : List (String × JSVal))
    (st : Store) : mergePatch ((k, .vnull) :: rest) st k = none := by
  unfold mergePatch
  rw [lookup_cons_self k .vnull rest]

/-- Merging a patch whose bindings are all null deletes every key the
patch mentions. -/
theorem mergePatch_allnull (patch : List (String × JSVal))
    (hall : ∀ p ∈ patch, p.2 = JSVal.vnull) (k : String)
    (hk : k ∈ patch.map Prod.fst) (st : Store) :
    mergePatch patch st k = none := by
  unfold mergePatch
  have hlook : ∀ (l : List (String × JSVal)), k ∈ l.map Prod.fst →
      List.lookup k l ≠ none := by
    intro l
    induction l with
    | nil => simp
    | cons p rest ih =>
      obtain ⟨k1, v1⟩ := p
      intro hmem
      by_cases hkp : k = k1
      · subst hkp
        rw [lookup_cons_self k v1 rest]
        simp
      · rw [lookup_cons_ne k k1 hkp v1 rest]
        refine ih ?_
        simp only [List.map_cons, List.mem_cons] at hmem
        exact hmem.resolve_left hkp
  cases hl : List.lookup k patch with
  | none => exact absurd hl (hlook patch hk)
  | some v =>
    have hv : v = .vnull := by
      have hmem := lookup_mem_values k v patch hl
      simp only [List.mem_map] at hmem
      obtain ⟨p, hp, hpv⟩ := hmem
      rw [← hpv]
      exact hall p hp
    rw [hv]

/-- A key a patch does not mention is read from the underlying store. -/
theorem mergePatch_not_mem (patch : List (String × JSVal)) (k : String)
    (hk : ∀ p ∈ patch, p.1 ≠ k) (st : Store) :
    mergePatch patch st k = st k := by
  unfold mergePatch
  have hl : List.lookup k patch = none := by
    induction patch with
    | nil => rfl
    | cons p rest ih =>
      rw [show p = (p.1, p.2) from rfl,
        lookup_cons_ne k p.1 (fun hh => hk p (by simp) hh.symm) p.2 rest]
      exact ih (fun q hq => hk q (by simp [hq]))
  rw [hl]

/-- Every registered cleanup is executed, once, in registration order,
regardless of which cleanups throw. -/
theorem runCleanups_executed (cs : List Cleanup) :
    (runCleanups cs).1 = cs.map Cleanup.tag := by
  induction cs with
  | nil => rfl
  | cons c rest ih => simp [runCleanups, ih]

/-- Window update does not affect other keys. -/
theorem updWindow_ne (w : Window) (k a : String) (v : JSVal) (h : a ≠ k) :
    updWindow w k v a = w a := by
  simp [updWindow, h]

/-- Unfolding one iteration of the ES-module loop. -/
theorem loadEsm_cons (env : LoadEnv) (al url : String)
    (rest : List (String × String)) (w : Window)
    (m : List (String × JSVal)) :
    loadEsmImports env ((al, url) :: rest) w m =
      ((loadEsmImports env rest (esmStep env w al url).1
          (assocSet m al (optVal ((esmStep env w al url).1 al)))).1,
       (loadEsmImports env rest (esmStep env w al url).1
          (assocSet m al (optVal ((esmStep env w al url).1 al)))).2.1,
       (esmStep env w al url).2 ++
        (loadEsmImports env rest (esmStep env w al url).1
          (assocSet m al (optVal ((esmStep env w al url).1 al)))).2.2) := rfl

/-- Unfolding one iteration of the legacy-script loop. -/
theorem loadScripts_cons (env : LoadEnv) (al url : String)
    (rest : List (String × String)) (w : Window)
    (m : List (String × JSVal)) :
    loadScriptImports env ((al, url) :: rest) w m =
      ((loadScriptImports env rest (scriptStep env w al url).1
          (assocSet m al (optVal (findGlobal (scriptStep env w al url).1 al)))).1,
       (loadScriptImports env rest (scriptStep env w al url).1
          (assocSet m al (optVal (findGlobal (scriptStep env w al url).1 al)))).2.1,
       (scriptStep env w al url).2 ++
        (loadScriptImports env rest (scriptStep env w al url).1
          (assocSet m al (optVal (findGlobal (scriptStep env w al url).1 al)))).2.2) := rfl

/-- One ES-module iteration only ever writes its own alias on `window`. -/
theorem esmStep_window_ne (env : LoadEnv) (w : Window) (al url a : String)
    (h : a ≠ al) : (esmStep env w al url).1 a = w a := by
  unfold esmStep
  split
  · rfl
  · split
    · exact updWindow_ne w al a _ h
    · rfl

/-- A rejected dynamic import with no truthy cached global: the window is
unchanged and the failure is logged. -/
theorem esmStep_fail (env : LoadEnv) (w : Window) (al url : String)
    (hw : w al = none) (hres : env.importResolve url = none) :
    esmStep env w al url = (w, [esmFailMsg al url]) := by
  unfold esmStep
  rw [hw, hres]
  rfl

/-- The ES-module loop leaves the window and import-map bindings of an
alias it never processes unchanged. -/
theorem loadEsm_preserves (env : LoadEnv) (a : String) :
    ∀ (esm : List (String × String)) (w : Window) (m : List (String × JSVal)),
      (∀ p ∈ esm, p.1 ≠ a) →
      (loadEsmImports env esm w m).1 a = w a ∧
      List.lookup a (loadEsmImports env esm w m).2.1 = List.lookup a m := by
  intro esm
  induction esm with
  | nil => exact fun w m _ => ⟨rfl, rfl⟩
  | cons p rest ih =>
    intro w m hne
    obtain ⟨al, url⟩ := p
    have hal : a ≠ al := fun hh => hne (al, url) (by simp) hh.symm
    have hrest : ∀ p ∈ rest, p.1 ≠ a := fun q hq => hne q (by simp [hq])
    rw [loadEsm_cons]
    have hih := ih (esmStep env w al url).1
      (assocSet m al (optVal ((esmStep env w al url).1 al))) hrest
    exact ⟨hih.1.trans (esmStep_window_ne env w al url a hal),
      hih.2.trans (lookup_assocSet_ne m al a _ hal)⟩

/-- The legacy-script loop leaves the import-map binding of an alias it
never processes unchanged. -/
theorem loadScripts_preserves_map (env : LoadEnv) (a : String) :
    ∀ (scripts : List (String × String)) (w : Window)
      (m : List (String × JSVal)),
      (∀ p ∈ scripts, p.1 ≠ a) →
      List.lookup a (loadScriptImports env scripts w m).2.1 =
        List.lookup a m := by
  intro scripts
  induction scripts with
  | nil => exact fun w m _ => rfl
  | cons p rest ih =>
    intro w m hne
    obtain ⟨al, url⟩ := p
    have hal : a ≠ al := fun hh => hne (al, url) (by simp) hh.symm
    have hrest : ∀ p ∈ rest, p.1 ≠ a := fun q hq => hne q (by simp [hq])
    rw [loadScripts_cons]
    exact (ih (scriptStep env w al url).1 _ hrest).trans
      (lookup_assocSet_ne m al a _ hal)

/-- Processing a declared ES-module import whose dynamic import rejects,
with nothing cached under its alias, binds the alias to `undefined` in
the import map and logs the failure; the other imports (of distinct
aliases) do not disturb the binding. -/
theorem loadEsm_failure (env : LoadEnv) (a u : String)
    (hres : env.importResolve u = none) :
    ∀ (pre : List (String × String)) (post : List (String × String))
      (w : Window) (m : List (String × JSVal)),
      (∀ p ∈ pre, p.1 ≠ a) → (∀ p ∈ post, p.1 ≠ a) → w a = none →
      List.lookup a (loadEsmImports env (pre ++ (a, u) :: post) w m).2.1 =
        some .vundef ∧
      esmFailMsg a u ∈ (loadEsmImports env (pre ++ (a, u) :: post) w m).2.2 := by
  intro pre
  induction pre with
  | nil =>
    intro post w m _ hpost hw
    rw [List.nil_append, loadEsm_cons, esmStep_fail env w a u hw hres]
    have hpres := loadEsm_preserves env a post w
      (assocSet m a (optVal (w a))) hpost
    constructor
    · refine hpres.2.trans ?_
      rw [hw]
      exact lookup_assocSet_self m a .vundef
    · simp
  | cons p pre2 ih =>
    intro post w m hpre hpost hw
    obtain ⟨al, url⟩ := p
    have hal : a ≠ al := fun hh => hpre (al, url) (by simp) hh.symm
    have hpre2 : ∀ p ∈ pre2, p.1 ≠ a := fun q hq => hpre q (by simp [hq])
    rw [List.cons_append, loadEsm_cons]
    have hw2 : (esmStep env w al url).1 a = none :=
      (esmStep_window_ne env w al url a hal).trans hw
    have hih := ih post (esmStep env w al url).1
      (assocSet m al (optVal ((esmStep env w al url).1 al))) hpre2 hpost hw2
    exact ⟨hih.1, by simp [hih.2]⟩

/-- One-step unfolding of a successful mount: the result of
`connectedCallback` when the element stayed attached and the initial
signal values parse. -/
theorem connectedCallback_ok (cd : ComponentDef) (env : LoadEnv)
    (attrs : List (String × String)) (inst0 : InstanceState) (w0 : Window)
    (st0 : Store) (vals : List (String × JSVal))
    (hok : buildSignalValues cd.signals attrs = .ok vals) :
    connectedCallback cd env attrs true inst0 w0 st0 =
      { inst := { inst0 with
          importsMap :=
            (loadImports env cd.imports cd.scripts w0 inst0.importsMap).2.1,
          connected := true },
        window := (loadImports env cd.imports cd.scripts w0 inst0.importsMap).1,
        store := mergePatch
          (vals.map (fun kv => (inst0.ns ++ "_" ++ kv.1, kv.2))) st0,
        log := (loadImports env cd.imports cd.scripts w0 inst0.importsMap).2.2,
        cloned := !inst0.hydrating,
        attached := !inst0.hydrating,
        scanFired := true,
        readyAttr := true,
        earlyReturn := false,
        setupRan := !isBlank cd.setupCode } := by
  unfold connectedCallback
  rw [hok]
  rfl

/-!
Claim theorems.
-/

/-- Claim C1, counterexample: for the codec string `int|min:0|max:10` the
`min:`/`max:` tokens are not part of the grammar (they are ignored as
unrecognised), so a connected instance observing "15" patches the raw
value 15 into the store — not the clamped 10 the claim asserts — and
"-5" patches -5, not 0. -/
theorem C1_clamping_counterexample :
    (parseCodec "int|min:0|max:10").map (fun c =>
        (attributeChangedCallback [("count", c)]
            ⟨"ns0", false, [], [], true⟩ "count" (some "1") (some "15"),
         attributeChangedCallback [("count", c)]
            ⟨"ns0", false, [], [], true⟩ "count" (some "1") (some "-5"),
         c.dflt)) =
      .ok (.ok (some [("ns0_count", .vnum 15)]),
           .ok (some [("ns0_count", .vnum (-5))]), .vnull) ∧
    JSVal.vnum 15 ≠ JSVal.vnum 10 ∧ JSVal.vnum (-5) ≠ JSVal.vnum 0 := by
  refine ⟨rfl, ?_, ?_⟩
  · intro h
    injection h with h
    exact absurd h (by norm_num)
  · intro h
    injection h with h
    exact absurd h (by norm_num)

/-- Claim C1 (amended): for a signal declared with codec string
`int|min:0|max:10`, setting the observed attribute to "15" yields the
unclamped 15 in the store patch and "-5" yields -5 (the `min:`/`max:`
tokens are unrecognised and ignored), and omitting the attribute yields
the codec default, which is null since the grammar has no `=` token. -/
theorem C1_no_clamping (inst : InstanceState) (c : SignalCodec)
    (hc : parseCodec "int|min:0|max:10" = .ok c)
    (hconn : inst.connected = true) (old : Option String) :
    (old ≠ some "15" →
      attributeChangedCallback [("count", c)] inst "count" old (some "15") =
        .ok (some [(inst.ns ++ "_" ++ "count", .vnum 15)])) ∧
    (old ≠ some "-5" →
      attributeChangedCallback [("count", c)] inst "count" old (some "-5") =
        .ok (some [(inst.ns ++ "_" ++ "count", .vnum (-5))])) ∧
    buildSignalValues [("count", c)] [] = .ok [("count", .vnull)] := by
  have hcc : c = ⟨fun v => .ok (jsParseInt v), .vnull⟩ := by
    have h2 := hc
    rw [show parseCodec "int|min:0|max:10" =
        Except.ok (⟨fun v => Except.ok (jsParseInt v), JSVal.vnull⟩ : SignalCodec)
      from rfl] at h2
    exact (Except.ok.inj h2).symm
  subst hcc
  refine ⟨fun hold => ?_, fun hold => ?_, rfl⟩
  · unfold attributeChangedCallback
    rw [if_neg (by simp [hold, hconn])]
    rfl
  · unfold attributeChangedCallback
    rw [if_neg (by simp [hold, hconn])]
    rfl

/-- Witness for `C1_no_clamping` at a concrete instance and store. -/
theorem C1_no_clamping_witness :
    attributeChangedCallback
        [("count", ⟨fun v => .ok (jsParseInt v), .vnull⟩)]
        ⟨"ns0", false, [], [], true⟩ "count" none (some "15") =
      .ok (some [("ns0" ++ "_" ++ "count", .vnum 15)]) ∧
    buildSignalValues [("count", ⟨fun v => .ok (jsParseInt v), .vnull⟩)] [] =
      .ok [("count", .vnull)] := by
  have h := C1_no_clamping ⟨"ns0", false, [], [], true⟩
    ⟨fun v => .ok (jsParseInt v), .vnull⟩ rfl rfl none
  exact ⟨h.1 (by simp), h.2.2⟩

/-- Claim C2, counterexample: with a reset counter, the first
`my-counter` instance mounted without a hydration id receives the
namespace `_star_my_counter_id0`, not the claimed `my_counter_id0`. -/
theorem C2_namespace_counterexample :
    (newStarElement "my-counter" [] 0).1.ns = "_star_my_counter_id0" ∧
    (newStarElement "my-counter" [] 0).1.ns ≠ "my_counter_id0" := by
  exact ⟨rfl, by decide⟩

/-- Claim C2 (amended): given a reset instance counter, two `my-counter`
instances mounted without hydration ids receive, in mount order, the
distinct namespaces `_star_my_counter_id0` and `_star_my_counter_id1`
(tag-derived name plus a `_star_` marker and the monotonic counter). -/
theorem C2_namespace_allocation :
    (newStarElement "my-counter" [] 0).1.ns = "_star_my_counter_id0" ∧
    (newStarElement "my-counter" [] 0).2 = 1 ∧
    (newStarElement "my-counter" []
        (newStarElement "my-counter" [] 0).2).1.ns = "_star_my_counter_id1" ∧
    (newStarElement "my-counter" [] 0).1.ns ≠
      (newStarElement "my-counter" []
        (newStarElement "my-counter" [] 0).2).1.ns := by
  exact ⟨rfl, rfl, rfl, by decide⟩

/-- Claim C3, counterexample: with a malformed `json` default in the
first template and a well-formed second template, the registration scan
throws out of its loop: the second component — which registers fine on
its own — is never registered, contradicting the claim that every other
component on the page still completes. -/
theorem C3_codec_error_counterexample :
    (initStarElements
        [⟨[("data-star:bad-comp", ""), ("data-signal:cfg", "json|=\x7b")],
            "", none⟩,
         ⟨[("data-star:good-comp", ""), ("data-signal:count", "int|=0")],
            "", none⟩]).1 = [] ∧
    (initStarElements
        [⟨[("data-star:bad-comp", ""), ("data-signal:cfg", "json|=\x7b")],
            "", none⟩,
         ⟨[("data-star:good-comp", ""), ("data-signal:count", "int|=0")],
            "", none⟩]).2 = some "JSON: expected string key" ∧
    (registerStarElement "good-comp"
        ⟨[("data-star:good-comp", ""), ("data-signal:count", "int|=0")],
          "", none⟩).isOk = true := by
  exact ⟨rfl, rfl, rfl⟩

/-- Claim C3 (amended): a `CodecError` (malformed typed default literal)
surfaces at registration time and aborts the registration of that
component and of every template after it in document order; components
registered before it are unaffected. -/
theorem C3_codec_error_aborts_scan (pre : List Template) (t : Template)
    (post : List Template) (nm e : String)
    (hpre : (initStarElements pre).2 = none)
    (hstar : findStarName t = some nm)
    (hfail : registerStarElement nm t = .error e) :
    initStarElements (pre ++ t :: post) = ((initStarElements pre).1, some e) := by
  induction pre with
  | nil =>
    simp only [List.nil_append, initStarElements, hstar, hfail]
  | cons p ps ih =>
    rw [List.cons_append]
    cases hp : findStarName p with
    | none =>
      have h1 : initStarElements (p :: (ps ++ t :: post)) =
          initStarElements (ps ++ t :: post) := by
        simp only [initStarElements, hp]
      have h2 : initStarElements (p :: ps) = initStarElements ps := by
        simp only [initStarElements, hp]
      rw [h2] at hpre
      rw [h1, h2]
      exact ih hpre
    | some nmP =>
      cases hr : registerStarElement nmP p with
      | error e2 =>
        exfalso
        have hbad : (initStarElements (p :: ps)).2 = some e2 := by
          simp only [initStarElements, hp, hr]
        exact Option.noConfusion (hbad.symm.trans hpre)
      | ok cd =>
        have h1 : initStarElements (p :: (ps ++ t :: post)) =
            ((nmP, cd) :: (initStarElements (ps ++ t :: post)).1,
             (initStarElements (ps ++ t :: post)).2) := by
          simp only [initStarElements, hp, hr]
        have h2 : initStarElements (p :: ps) =
            ((nmP, cd) :: (initStarElements ps).1,
             (initStarElements ps).2) := by
          simp only [initStarElements, hp, hr]
        rw [h2] at hpre
        rw [h1, h2, ih hpre]

/-- Witness for `C3_codec_error_aborts_scan`: a good template before the
bad one stays registered, the bad and the later template are not. -/
theorem C3_codec_error_aborts_scan_witness :
    initStarElements
        [⟨[("data-star:good-comp", ""), ("data-signal:count", "int|=0")],
            "", none⟩,
         ⟨[("data-star:bad-comp", ""), ("data-signal:cfg", "json|=\x7b")],
            "", none⟩,
         ⟨[("data-star:late-comp", "")], "", none⟩] =
      ((initStarElements
          [⟨[("data-star:good-comp", ""), ("data-signal:count", "int|=0")],
              "", none⟩]).1,
       some "JSON: expected string key") := by
  exact C3_codec_error_aborts_scan
    [⟨[("data-star:good-comp", ""), ("data-signal:count", "int|=0")], "", none⟩]
    ⟨[("data-star:bad-comp", ""), ("data-signal:cfg", "json|=\x7b")], "", none⟩
    [⟨[("data-star:late-comp", "")], "", none⟩]
    "bad-comp" "JSON: expected string key" rfl rfl rfl

/-- Claim C4: for a template declaring signal `count` with codec `int|=0`,
an instance mounted with attribute count="5" ends with store key
`<namespace>_count` equal to 5, and an instance mounted without the
attribute ends with `<namespace>_count` equal to the parsed codec
default 0. -/
theorem C4_mount_signal_values (c : SignalCodec)
    (hc : parseCodec "int|=0" = .ok c)
    (cd : ComponentDef) (hcd : cd.signals = [("count", c)])
    (env : LoadEnv) (attrs5 attrs0 : List (String × String))
    (h5 : attrs5.lookup "count" = some "5")
    (h0 : attrs0.lookup "count" = none)
    (inst0 : InstanceState) (w0 : Window) (st0 : Store) :
    (connectedCallback cd env attrs5 true inst0 w0 st0).store
        (inst0.ns ++ "_" ++ "count") = some (.vnum 5) ∧
    (connectedCallback cd env attrs0 true inst0 w0 st0).store
        (inst0.ns ++ "_" ++ "count") = some (.vnum 0) := by
  have hcc : c = ⟨fun v => .ok (jsParseInt v), .vnum 0⟩ := by
    have h2 := hc
    rw [show parseCodec "int|=0" =
        Except.ok (⟨fun v => Except.ok (jsParseInt v), JSVal.vnum 0⟩ : SignalCodec)
      from rfl] at h2
    exact (Except.ok.inj h2).symm
  subst hcc
  have hb5 : buildSignalValues cd.signals attrs5 = .ok [("count", .vnum 5)] := by
    rw [hcd]
    unfold buildSignalValues
    rw [h5]
    rfl
  have hb0 : buildSignalValues cd.signals attrs0 = .ok [("count", .vnum 0)] := by
    rw [hcd]
    unfold buildSignalValues
    rw [h0]
    rfl
  rw [connectedCallback_ok cd env attrs5 inst0 w0 st0 _ hb5,
    connectedCallback_ok cd env attrs0 inst0 w0 st0 _ hb0]
  constructor
  · show mergePatch
        (List.map (fun kv => (inst0.ns ++ "_" ++ kv.1, kv.2))
          [("count", JSVal.vnum 5)]) st0
        (inst0.ns ++ "_" ++ "count") = some (JSVal.vnum 5)
    rw [show List.map (fun kv => (inst0.ns ++ "_" ++ kv.1, kv.2))
        [("count", JSVal.vnum 5)] =
        [(inst0.ns ++ "_" ++ "count", JSVal.vnum 5)] from rfl]
    exact mergePatch_head_set _ _ [] st0 (fun h => JSVal.noConfusion h)
  · show mergePatch
        (List.map (fun kv => (inst0.ns ++ "_" ++ kv.1, kv.2))
          [("count", JSVal.vnum 0)]) st0
        (inst0.ns ++ "_" ++ "count") = some (JSVal.vnum 0)
    rw [show List.map (fun kv => (inst0.ns ++ "_" ++ kv.1, kv.2))
        [("count", JSVal.vnum 0)] =
        [(inst0.ns ++ "_" ++ "count", JSVal.vnum 0)] from rfl]
    exact mergePatch_head_set _ _ [] st0 (fun h => JSVal.noConfusion h)

/-- Witness for `C4_mount_signal_values` at a concrete component,
instance, window and store. -/
theorem C4_mount_signal_values_witness :
    (connectedCallback
        ⟨"my-counter", [("count", ⟨fun v => .ok (jsParseInt v), .vnum 0⟩)],
          [], [], false, "open", "x"⟩
        ⟨fun _ => none, fun _ => true, fun _ w => w⟩ [("count", "5")] true
        ⟨"ns0", false, [], [], false⟩ (fun _ => none) (fun _ => none)).store
      ("ns0" ++ "_" ++ "count") = some (.vnum 5) ∧
    (connectedCallback
        ⟨"my-counter", [("count", ⟨fun v => .ok (jsParseInt v), .vnum 0⟩)],
          [], [], false, "open", "x"⟩
        ⟨fun _ => none, fun _ => true, fun _ w => w⟩ [] true
        ⟨"ns0", false, [], [], false⟩ (fun _ => none) (fun _ => none)).store
      ("ns0" ++ "_" ++ "count") = some (.vnum 0) := by
  exact C4_mount_signal_values ⟨fun v => .ok (jsParseInt v), .vnum 0⟩ rfl
    ⟨"my-counter", [("count", ⟨fun v => .ok (jsParseInt v), .vnum 0⟩)],
      [], [], false, "open", "x"⟩ rfl
    ⟨fun _ => none, fun _ => true, fun _ w => w⟩
    [("count", "5")] [] rfl rfl
    ⟨"ns0", false, [], [], false⟩ (fun _ => none) (fun _ => none)

/-- Claim C5: on any attribute value segmented into sigil-free text,
global `$id` references and component-local `$$id` references (with
identifiers well formed and local references not run into identifier
text), the signal-reference rewrite replaces every `$$id` with
`$<namespace>_id` and leaves the text and every `$id` unchanged. -/
theorem C5_sigil_rewrite (ns : String) (ts : List SigTok)
    (h : wfToks ts = true) :
    namespaceSignalRefs ns (renderToks ts) =
      renderToks (ts.map (SigTok.rewrite ns)) ∧
    (∀ id, SigTok.rewrite ns (SigTok.loc id) =
      SigTok.glob (ns ++ "_" ++ id)) ∧
    (∀ id, SigTok.rewrite ns (SigTok.glob id) = SigTok.glob id) ∧
    (∀ s, SigTok.rewrite ns (SigTok.plain s) = SigTok.plain s) :=
  ⟨namespaceSignalRefs_renderToks ns ts h,
    fun _ => rfl, fun _ => rfl, fun _ => rfl⟩

/-- Witness for `C5_sigil_rewrite`: `$count` and `$$count` in the same
attribute value rewrite only the latter. -/
theorem C5_sigil_rewrite_witness :
    wfToks [SigTok.glob "count", SigTok.plain " and ", SigTok.loc "count"] =
      true ∧
    namespaceSignalRefs "ns0" "$count and $$count" =
      "$count and $ns0_count" := by
  refine ⟨rfl, ?_⟩
  exact (C5_sigil_rewrite "ns0"
    [SigTok.glob "count", SigTok.plain " and ", SigTok.loc "count"] rfl).1

/-- Claim C6: after disconnect, every registered cleanup has executed
exactly once in registration order (throwing cleanups included — they are
caught and do not block the rest), the cleanup list is emptied, every
declared signal under the instance's namespace is deleted from the store
by the null-valued merge patch, and a second disconnect reproduces the
same instance state and store while executing nothing. -/
theorem C6_disconnect_complete_idempotent
    (signals : List (String × SignalCodec)) (inst : InstanceState)
    (st : Store) :
    (disconnectedCallback signals inst st).executed =
      inst.cleanups.map Cleanup.tag ∧
    (disconnectedCallback signals inst st).inst.cleanups = [] ∧
    (∀ s ∈ signals,
      (disconnectedCallback signals inst st).store
        (inst.ns ++ "_" ++ toCamelCase s.1) = none) ∧
    (disconnectedCallback signals
        (disconnectedCallback signals inst st).inst
        (disconnectedCallback signals inst st).store).inst =
      (disconnectedCallback signals inst st).inst ∧
    (disconnectedCallback signals
        (disconnectedCallback signals inst st).inst
        (disconnectedCallback signals inst st).store).store =
      (disconnectedCallback signals inst st).store ∧
    (disconnectedCallback signals
        (disconnectedCallback signals inst st).inst
        (disconnectedCallback signals inst st).store).executed = [] := by
  have hall : ∀ p ∈ removeSignalsPatch signals inst.ns, p.2 = JSVal.vnull := by
    intro p hp
    simp only [removeSignalsPatch, List.mem_map] at hp
    obtain ⟨s, _, hs⟩ := hp
    rw [← hs]
  refine ⟨runCleanups_executed inst.cleanups, rfl, ?_, rfl, ?_, rfl⟩
  · intro s hs
    apply mergePatch_allnull (removeSignalsPatch signals inst.ns) hall
    simp only [removeSignalsPatch, List.map_map, List.mem_map]
    exact ⟨s, hs, rfl⟩
  · funext k
    show mergePatch (removeSignalsPatch signals inst.ns)
        (mergePatch (removeSignalsPatch signals inst.ns) st) k =
      mergePatch (removeSignalsPatch signals inst.ns) st k
    unfold mergePatch
    cases hl : List.lookup k (removeSignalsPatch signals inst.ns) with
    | none => rfl
    | some v =>
      have hv : v = JSVal.vnull := by
        have hmem := lookup_mem_values k v _ hl
        simp only [List.mem_map] at hmem
        obtain ⟨p, hp, hpv⟩ := hmem
        rw [← hpv]
        exact hall p hp
      subst hv
      rfl

/-- Claim C7: an instance whose declared ES-module dependency fails to
resolve (nothing cached on `window`, dynamic import rejects) ends with
that alias bound to `undefined` in its import map — the bindings handed
to the setup scope — the per-dependency failure logged, and the instance
still connected with the ready attribute set. -/
theorem C7_import_failure_nonfatal (cd : ComponentDef) (env : LoadEnv)
    (pre post : List (String × String)) (a u : String)
    (him : cd.imports = pre ++ (a, u) :: post)
    (hpre : ∀ p ∈ pre, p.1 ≠ a) (hpost : ∀ p ∈ post, p.1 ≠ a)
    (hscr : ∀ p ∈ cd.scripts, p.1 ≠ a)
    (hres : env.importResolve u = none)
    (attrs : List (String × String)) (inst0 : InstanceState)
    (w0 : Window) (hw : w0 a = none) (st0 : Store)
    (vals : List (String × JSVal))
    (hok : buildSignalValues cd.signals attrs = .ok vals) :
    List.lookup a
        (connectedCallback cd env attrs true inst0 w0 st0).inst.importsMap =
      some .vundef ∧
    esmFailMsg a u ∈ (connectedCallback cd env attrs true inst0 w0 st0).log ∧
    (connectedCallback cd env attrs true inst0 w0 st0).inst.connected = true ∧
    (connectedCallback cd env attrs true inst0 w0 st0).readyAttr = true := by
  rw [connectedCallback_ok cd env attrs inst0 w0 st0 vals hok]
  have hesm := loadEsm_failure env a u hres pre post w0 inst0.importsMap
    hpre hpost hw
  rw [him]
  unfold loadImports
  refine ⟨?_, ?_, rfl, rfl⟩
  · exact (loadScripts_preserves_map env a cd.scripts _ _ hscr).trans hesm.1
  · exact List.mem_append.mpr (Or.inl hesm.2)

/-- Witness for `C7_import_failure_nonfatal` at a concrete component and
environment whose dynamic import always rejects. -/
theorem C7_import_failure_nonfatal_witness :
    List.lookup "plotly"
        (connectedCallback
          ⟨"chart-comp", [], [("plotly", "./plotly.js")], [], false, "open", "x"⟩
          ⟨fun _ => none, fun _ => true, fun _ w => w⟩ [] true
          ⟨"ns0", false, [], [], false⟩ (fun _ => none)
          (fun _ => none)).inst.importsMap = some .vundef ∧
    esmFailMsg "plotly" "./plotly.js" ∈
      (connectedCallback
          ⟨"chart-comp", [], [("plotly", "./plotly.js")], [], false, "open", "x"⟩
          ⟨fun _ => none, fun _ => true, fun _ w => w⟩ [] true
          ⟨"ns0", false, [], [], false⟩ (fun _ => none)
          (fun _ => none)).log ∧
    (connectedCallback
        ⟨"chart-comp", [], [("plotly", "./plotly.js")], [], false, "open", "x"⟩
        ⟨fun _ => none, fun _ => true, fun _ w => w⟩ [] true
        ⟨"ns0", false, [], [], false⟩ (fun _ => none)
        (fun _ => none)).inst.connected = true ∧
    (connectedCallback
        ⟨"chart-comp", [], [("plotly", "./plotly.js")], [], false, "open", "x"⟩
        ⟨fun _ => none, fun _ => true, fun _ w => w⟩ [] true
        ⟨"ns0", false, [], [], false⟩ (fun _ => none)
        (fun _ => none)).readyAttr = true := by
  exact C7_import_failure_nonfatal
    ⟨"chart-comp", [], [("plotly", "./plotly.js")], [], false, "open", "x"⟩
    ⟨fun _ => none, fun _ => true, fun _ w => w⟩
    [] [] "plotly" "./plotly.js" rfl (by simp) (by simp) (by simp) rfl
    [] ⟨"ns0", false, [], [], false⟩ (fun _ => none) rfl (fun _ => none)
    [] rfl

/-- Claim C8: a change to an observed declared-signal attribute produces
a store patch under the namespaced key, parsed by the matching codec,
exactly when the instance is connected and the value actually changed; no
patch is issued before the instance reaches the connected state or when
the new value equals the old one. -/
theorem C8_attribute_change_guard (signals : List (String × SignalCodec))
    (inst : InstanceState) (attrName : String) (old new : Option String) :
    ((inst.connected = false ∨ old = new) →
      attributeChangedCallback signals inst attrName old new = .ok none) ∧
    (inst.connected = true → old ≠ new →
      ∀ c v pv, signals.lookup attrName = some c → new = some v →
        c.parse v = .ok pv →
        attributeChangedCallback signals inst attrName old new =
          .ok (some [(inst.ns ++ "_" ++ toCamelCase attrName, pv)])) := by
  constructor
  · intro h
    unfold attributeChangedCallback
    rw [if_pos (by rcases h with h | h; exacts [Or.inr h, Or.inl h])]
  · intro hconn hne c v pv hl hnew hp
    subst hnew
    unfold attributeChangedCallback
    rw [if_neg (by simp [hne, hconn])]
    simp only [hl, hp]

/-- Witness for `C8_attribute_change_guard`: no patch before connection,
a parsed patch when connected. -/
theorem C8_attribute_change_guard_witness :
    attributeChangedCallback
        [("count", ⟨fun v => .ok (jsParseInt v), .vnull⟩)]
        ⟨"ns0", false, [], [], false⟩ "count" none (some "7") = .ok none ∧
    attributeChangedCallback
        [("count", ⟨fun v => .ok (jsParseInt v), .vnull⟩)]
        ⟨"ns0", false, [], [], true⟩ "count" none (some "7") =
      .ok (some [("ns0" ++ "_" ++ toCamelCase "count", .vnum 7)]) := by
  refine ⟨(C8_attribute_change_guard _ _ _ _ _).1 (Or.inl rfl), ?_⟩
  exact (C8_attribute_change_guard
      [("count", ⟨fun v => .ok (jsParseInt v), .vnull⟩)]
      ⟨"ns0", false, [], [], true⟩ "count" none (some "7")).2
    rfl (by simp) _ "7" _ rfl rfl rfl

/-- Claim C9: an instance constructed with a hydration id (hydrating flag
true) mounts without any template-content cloning or subtree attachment,
and ends connected with the ready attribute set — the same
connected/ready state a freshly rendered instance reaches given identical
declared-signal values (a fresh instance does clone). -/
theorem C9_hydration_no_clone (cd : ComponentDef) (env : LoadEnv)
    (attrsH attrsF : List (String × String))
    (instH instF : InstanceState) (wH wF : Window) (stH stF : Store)
    (hH : instH.hydrating = true) (hF : instF.hydrating = false)
    (vals : List (String × JSVal))
    (hokH : buildSignalValues cd.signals attrsH = .ok vals)
    (hokF : buildSignalValues cd.signals attrsF = .ok vals) :
    (connectedCallback cd env attrsH true instH wH stH).cloned = false ∧
    (connectedCallback cd env attrsH true instH wH stH).attached = false ∧
    (connectedCallback cd env attrsF true instF wF stF).cloned = true ∧
    (connectedCallback cd env attrsH true instH wH stH).inst.connected = true ∧
    (connectedCallback cd env attrsH true instH wH stH).readyAttr = true ∧
    (connectedCallback cd env attrsF true instF wF stF).inst.connected = true ∧
    (connectedCallback cd env attrsF true instF wF stF).readyAttr = true ∧
    ((connectedCallback cd env attrsH true instH wH stH).inst.connected,
      (connectedCallback cd env attrsH true instH wH stH).readyAttr) =
      ((connectedCallback cd env attrsF true instF wF stF).inst.connected,
       (connectedCallback cd env attrsF true instF wF stF).readyAttr) := by
  rw [connectedCallback_ok cd env attrsH instH wH stH vals hokH,
    connectedCallback_ok cd env attrsF instF wF stF vals hokF]
  simp [hH, hF]

/-- Witness for `C9_hydration_no_clone` at concrete hydrated and fresh
instances of the same component. -/
theorem C9_hydration_no_clone_witness :
    (connectedCallback ⟨"c", [], [], [], false, "open", ""⟩
        ⟨fun _ => none, fun _ => true, fun _ w => w⟩ [] true
        ⟨"sid", true, [], [], false⟩ (fun _ => none)
        (fun _ => none)).cloned = false ∧
    (connectedCallback ⟨"c", [], [], [], false, "open", ""⟩
        ⟨fun _ => none, fun _ => true, fun _ w => w⟩ [] true
        ⟨"sid", true, [], [], false⟩ (fun _ => none)
        (fun _ => none)).readyAttr = true := by
  have h := C9_hydration_no_clone ⟨"c", [], [], [], false, "open", ""⟩
    ⟨fun _ => none, fun _ => true, fun _ w => w⟩ [] []
    ⟨"sid", true, [], [], false⟩ ⟨"ns0", false, [], [], false⟩
    (fun _ => none) (fun _ => none) (fun _ => none) (fun _ => none)
    rfl rfl [] rfl rfl
  exact ⟨h.1, h.2.2.2.2.1⟩

/-- Claim C10: while connected, removing an observed declared-signal
attribute (new value null) issues a store patch mapping the namespaced
key to null, which deletes the key under merge-patch semantics — for
every declared codec, including those whose default is not null, the
signal is deleted rather than reset to the codec default. -/
theorem C10_attribute_removal_deletes (signals : List (String × SignalCodec))
    (inst : InstanceState) (attrName : String) (oldVal : String) (st : Store)
    (hconn : inst.connected = true) :
    attributeChangedCallback signals inst attrName (some oldVal) none =
      .ok (some [(inst.ns ++ "_" ++ toCamelCase attrName, .vnull)]) ∧
    mergePatch [(inst.ns ++ "_" ++ toCamelCase attrName, .vnull)] st
      (inst.ns ++ "_" ++ toCamelCase attrName) = none := by
  constructor
  · unfold attributeChangedCallback
    rw [if_neg (by simp [hconn])]
  · exact mergePatch_head_null _ [] st

/-- Witness for `C10_attribute_removal_deletes` with a codec whose
default is 0, on a store where the signal was present. -/
theorem C10_attribute_removal_deletes_witness :
    attributeChangedCallback
        [("count", ⟨fun v => .ok (jsParseInt v), .vnum 0⟩)]
        ⟨"ns0", false, [], [], true⟩ "count" (some "7") none =
      .ok (some [("ns0" ++ "_" ++ toCamelCase "count", .vnull)]) ∧
    mergePatch [("ns0" ++ "_" ++ toCamelCase "count", .vnull)]
        (fun _ => some (.vnum 7)) ("ns0" ++ "_" ++ toCamelCase "count") =
      none := by
  exact C10_attribute_removal_deletes
    [("count", ⟨fun v => .ok (jsParseInt v), .vnum 0⟩)]
    ⟨"ns0", false, [], [], true⟩ "count" "7" (fun _ => some (.vnum 7)) rfl

end StarElements
